import Mathlib

/-!
# Verification of the pamela news-arbitrage trading core

A shallow embedding of the scan-evaluate-execute orchestration loop of the
pamela repository, covering:

* `src/services/news/news-service.ts` (`NewsService`): daily request budget,
  headline cache, `fetchForArbitrage`, `matchArticlesLocally`, `buildSignal`;
* `src/services/autonomous-trading/index.ts` (`AutonomousTradingService`):
  `checkDailyReset`, `canTrade`, the `scanAndTrade` evaluation loop and the
  `handleTrade` deposit-recovery path;
* `src/services/autonomous-trading/opportunity-evaluator.ts`
  (`OpportunityEvaluator.evaluate`);
* `src/services/autonomous-trading/strategies/NewsArbStrategy.ts`
  (`callLLM` retry, `findOpportunities` step 4).

Numbers are embedded as `ℚ` (exact arithmetic standing in for JS numbers;
decimal constants such as `0.3` are written `mkRat 3 10`).  Wall-clock
calendar dates are a `SimpleDate` triple; timestamps in milliseconds are
`Nat`.  Network and LLM collaborators are oracles passed as explicit
arguments, and each stateful method is a function from state (plus oracle
inputs) to state together with its observable outputs.  Logging is not
modelled.
-/

/-! ## String helpers

JavaScript `String.prototype.includes`, modelled on the character list. -/

def charListStartsWith : List Char → List Char → Bool
  | [], _ => true
  | _ :: _, [] => false
  | a :: as, b :: bs => a == b && charListStartsWith as bs

def strContainsAux (needle : List Char) : List Char → Bool
  | [] => needle.isEmpty
  | c :: rest => charListStartsWith needle (c :: rest) || strContainsAux needle rest

/-- JS `s.includes(pat)`. -/
def strContains (s pat : String) : Bool :=
  strContainsAux pat.toList s.toList

/-- JS `s.toLowerCase()` (ASCII behaviour suffices for the claims). -/
def strLower (s : String) : String :=
  ⟨s.data.map Char.toLower⟩

/-! ## Calendar dates

`new Date().toDateString()` yields a string such as `"Wed Jan 15 2026"`:
two wall-clock instants produce the same string exactly when they fall on
the same calendar day.  A calendar day is modelled as a year/month/day
triple, so equality of `SimpleDate`s models equality of `toDateString()`
results, and `SimpleDate.day` models JS `Date.prototype.getDate()`
(the day of the month). -/

structure SimpleDate where
  year : Nat
  month : Nat
  day : Nat
deriving DecidableEq

/-- Strict calendar order (D1 earlier than D2). -/
def SimpleDate.before (a b : SimpleDate) : Bool :=
  decide (a.year < b.year) ||
    (decide (a.year = b.year) &&
      (decide (a.month < b.month) || (decide (a.month = b.month) && decide (a.day < b.day))))

/-! ## Article data model (`NewsArticle` in news-service.ts) -/

inductive Sentiment where
  | positive
  | negative
  | neutral
deriving DecidableEq

structure Article where
  title : String
  description : String
  url : String
  source : String
  publishedAt : Nat
  sentiment : Sentiment
  relevanceScore : ℚ
  categories : List String
deriving DecidableEq

/-! ## NewsService state and budget machinery

State of the `NewsService` singleton relevant to the claims.  The search
cache of `getMarketSignals` is not needed by any claim and is omitted.
`hasNewsApiKey` models `this.activeApiKeys.has("NewsAPI")`. -/

structure NewsState where
  headlineCache : Option (List Article × Nat)
  dailyRequestCount : Nat
  lastResetDate : SimpleDate
  searchesThisCycle : Nat
  hasNewsApiKey : Bool
deriving DecidableEq

namespace NewsService

def MAX_DAILY_REQUESTS : Nat := 95

def HEADLINE_CACHE_TTL : Nat := 30 * 60 * 1000

def MAX_SEARCHES_PER_CYCLE : Nat := 8

/-- `resetCycleCounter()`: sets the per-cycle search counter to 0. -/
def resetCycleCounter (s : NewsState) : NewsState :=
  { s with searchesThisCycle := 0 }

/-- `checkDailyReset()`: compares today's `toDateString()` with
`lastResetDate` and zeroes the daily request counter when they differ. -/
def checkDailyReset (today : SimpleDate) (s : NewsState) : NewsState :=
  if today ≠ s.lastResetDate then
    { s with dailyRequestCount := 0, lastResetDate := today }
  else s

/-- `canMakeRequest()`: runs the daily reset, then checks the budget.
Returns the answer together with the (possibly reset) state. -/
def canMakeRequest (today : SimpleDate) (s : NewsState) : Bool × NewsState :=
  let s1 := checkDailyReset today s
  (decide (s1.dailyRequestCount < MAX_DAILY_REQUESTS), s1)

/-- `trackRequest()`: increments the daily request counter. -/
def trackRequest (s : NewsState) : NewsState :=
  { s with dailyRequestCount := s.dailyRequestCount + 1 }

/-- The headline cache is present and fresher than 30 minutes
(`Date.now() - timestamp < HEADLINE_CACHE_TTL`). -/
def headlineCacheFresh (now : Nat) (s : NewsState) : Bool :=
  match s.headlineCache with
  | some (_, ts) => decide (now < ts + HEADLINE_CACHE_TTL)
  | none => false

/-- `this.headlineCache?.data || []`. -/
def cachedHeadlines (s : NewsState) : List Article :=
  match s.headlineCache with
  | some (d, _) => d
  | none => []

/-- `fetchHeadlines()`.  `apiResult` is the oracle for the NewsAPI
top-headlines call: `some articles` is a successful (already mapped)
response, `none` is a request error.  Returns the article list, the new
state, and the number of underlying API calls issued. -/
def fetchHeadlines (now : Nat) (today : SimpleDate) (apiResult : Option (List Article))
    (s : NewsState) : List Article × NewsState × Nat :=
  if s.hasNewsApiKey = false then ([], s, 0)
  else if headlineCacheFresh now s then (cachedHeadlines s, s, 0)
  else
    let p := canMakeRequest today s
    if p.1 = false then (cachedHeadlines p.2, p.2, 0)
    else
      let s2 := trackRequest p.2
      match apiResult with
      | some articles => (articles, { s2 with headlineCache := some (articles, now) }, 1)
      | none => (cachedHeadlines s2, s2, 1)

end NewsService

/-! ## Daily reset of the trading service (index.ts) -/

structure TradingDaily where
  dailyTradeCount : Nat
  lastResetDate : SimpleDate
deriving DecidableEq

namespace AutonomousTrading

/-- `AutonomousTradingService.checkDailyReset()`: note that the source
compares `now.getDate() !== this.lastResetDate.getDate()`, i.e. only the
day of the month, not the full calendar date. -/
def checkDailyReset (now : SimpleDate) (s : TradingDaily) : TradingDaily :=
  if now.day ≠ s.lastResetDate.day then
    { dailyTradeCount := 0, lastResetDate := now }
  else s

end AutonomousTrading

/-! ## Claim C1: daily counters after a date rollover -/

def dJan15 : SimpleDate := ⟨2026, 1, 15⟩

def dFeb15 : SimpleDate := ⟨2026, 2, 15⟩

def newsStateC1 : NewsState :=
  { headlineCache := none
    dailyRequestCount := 9
    lastResetDate := dJan15
    searchesThisCycle := 0
    hasNewsApiKey := true }

/-- Claim C1, counterexample.  The two calendar dates 2026-01-15 and
2026-02-15 satisfy D1 < D2, yet after the first budget check performed on
D2 the daily trade counter is still 7 (not 0): the trading service's
`checkDailyReset` compares only the day of the month, which is `15` in
both dates.  (The news-request counter is reset to 0 as claimed.) -/
theorem claim_C1_counterexample :
    SimpleDate.before dJan15 dFeb15 = true ∧ dJan15 ≠ dFeb15 ∧
    (AutonomousTrading.checkDailyReset dFeb15
      { dailyTradeCount := 7, lastResetDate := dJan15 }).dailyTradeCount = 7 ∧
    (NewsService.canMakeRequest dFeb15 newsStateC1).2.dailyRequestCount = 0 := by
  decide

/-- Claim C1, amended.  For calendar dates D1 ≠ D2, after the first budget
check on D2 the daily news-request counter is always 0; the daily trade
counter is 0 exactly when the day-of-month of D2 differs from that of D1
(which holds in particular for consecutive calendar days), and otherwise
keeps its D1 value. -/
theorem claim_C1_amended (d1 d2 : SimpleDate) (ns : NewsState) (ts : TradingDaily)
    (hn : ns.lastResetDate = d1) (ht : ts.lastResetDate = d1) (hne : d1 ≠ d2) :
    (NewsService.canMakeRequest d2 ns).2.dailyRequestCount = 0 ∧
    (d1.day ≠ d2.day →
      (AutonomousTrading.checkDailyReset d2 ts).dailyTradeCount = 0) ∧
    (d1.day = d2.day → AutonomousTrading.checkDailyReset d2 ts = ts) := by
  refine ⟨?_, ?_, ?_⟩
  · have h2 : d2 ≠ ns.lastResetDate := by rw [hn]; exact fun h => hne h.symm
    simp [NewsService.canMakeRequest, NewsService.checkDailyReset, if_pos h2]
  · intro hday
    have h2 : d2.day ≠ ts.lastResetDate.day := by rw [ht]; exact fun h => hday h.symm
    simp [AutonomousTrading.checkDailyReset, if_pos h2]
  · intro hday
    have h2 : ¬ d2.day ≠ ts.lastResetDate.day := by rw [ht]; exact fun h => h hday.symm
    simp [AutonomousTrading.checkDailyReset, h2]

/-- Witness for `claim_C1_amended` at D1 = 2026-01-15, D2 = 2026-01-16. -/
theorem claim_C1_witness :
    (NewsService.canMakeRequest ⟨2026, 1, 16⟩ newsStateC1).2.dailyRequestCount = 0 ∧
    (AutonomousTrading.checkDailyReset ⟨2026, 1, 16⟩
      { dailyTradeCount := 7, lastResetDate := ⟨2026, 1, 15⟩ }).dailyTradeCount = 0 :=
  ⟨(claim_C1_amended ⟨2026, 1, 15⟩ ⟨2026, 1, 16⟩ newsStateC1
      { dailyTradeCount := 7, lastResetDate := ⟨2026, 1, 15⟩ } rfl rfl (by decide)).1,
    (claim_C1_amended ⟨2026, 1, 15⟩ ⟨2026, 1, 16⟩ newsStateC1
      { dailyTradeCount := 7, lastResetDate := ⟨2026, 1, 15⟩ } rfl rfl (by decide)).2.1
      (by decide)⟩

/-! ## fetchForArbitrage and its title deduplication (news-service.ts) -/

namespace NewsService

/-- The dedup-append loop of `fetchForArbitrage`: walks the breaking-search
articles, appending those whose title is not in the `seen` set, and adding
each appended title to `seen`. -/
def arbDedupGo : List Article → List Article → List String → List Article
  | [], combined, _ => combined
  | a :: rest, combined, seen =>
    if seen.contains a.title then arbDedupGo rest combined seen
    else arbDedupGo rest (combined ++ [a]) (a.title :: seen)

/-- `combined = [...headlines]; seen = new Set(combined.map(a => a.title));
for (const article of articles) if (!seen.has(article.title)) ...`. -/
def arbCombine (headlines breaking : List Article) : List Article :=
  arbDedupGo breaking headlines (headlines.map Article.title)

/-- Specification-shaped description of the dedup: keep exactly those
articles whose title has not occurred earlier (among the titles already
`seen`, or on an earlier kept article — first occurrence wins). -/
def arbKept (seen : List String) : List Article → List Article
  | [] => []
  | a :: rest =>
    if seen.contains a.title then arbKept seen rest
    else a :: arbKept (a.title :: seen) rest

/-- `fetchForArbitrage()`.  `headApi` and `breakingApi` are the oracles for
the two NewsAPI requests (`none` = request error).  Returns the combined
article list, the new state, and the number of underlying API calls
issued.  The breaking search tracks a budget unit before looking up the
API key, and a failed search leaves `combined` as the headlines alone. -/
def fetchForArbitrage (now : Nat) (today : SimpleDate)
    (headApi breakingApi : Option (List Article)) (s : NewsState) :
    List Article × NewsState × Nat :=
  let h := fetchHeadlines now today headApi s
  let p := canMakeRequest today h.2.1
  if p.1 = false then (h.1, p.2, h.2.2)
  else
    let s3 := trackRequest p.2
    if s3.hasNewsApiKey = false then (h.1, s3, h.2.2)
    else
      match breakingApi with
      | some articles => (arbCombine h.1 articles, s3, h.2.2 + 1)
      | none => (h.1, s3, h.2.2 + 1)

end NewsService

/-! ## Claim C9: dedup is headline-first, first occurrence wins -/

theorem arbDedupGo_eq_kept (breaking : List Article) :
    ∀ (combined : List Article) (seen : List String),
      NewsService.arbDedupGo breaking combined seen =
        combined ++ NewsService.arbKept seen breaking := by
  induction breaking with
  | nil => intro combined seen; simp [NewsService.arbDedupGo, NewsService.arbKept]
  | cons a rest ih =>
    intro combined seen
    by_cases h : a.title ∈ seen
    · simp [NewsService.arbDedupGo, NewsService.arbKept, h, ih]
    · simp [NewsService.arbDedupGo, NewsService.arbKept, h, ih]

def artA : Article :=
  { title := "A", description := "dA", url := "uA", source := "s1",
    publishedAt := 0, sentiment := .neutral, relevanceScore := 1, categories := [] }

def artB : Article :=
  { title := "B", description := "dB", url := "uB", source := "s1",
    publishedAt := 1, sentiment := .neutral, relevanceScore := 1, categories := [] }

def artB2 : Article :=
  { title := "B", description := "dB from search", url := "uB2", source := "s2",
    publishedAt := 2, sentiment := .neutral, relevanceScore := 1, categories := [] }

def artC : Article :=
  { title := "C", description := "dC", url := "uC", source := "s2",
    publishedAt := 3, sentiment := .neutral, relevanceScore := 1, categories := [] }

/-- Claim C9: the combined list of `fetchForArbitrage` is the headlines in
their original order followed by exactly those breaking-search articles
whose title does not already occur earlier in the combined list (first
occurrence wins); in particular headlines `[A, B]` and breaking results
`[B', C]` with `B'.title = B.title` combine to `[A, B, C]`. -/
theorem claim_C9 :
    (∀ (headlines breaking : List Article),
      NewsService.arbCombine headlines breaking =
        headlines ++ NewsService.arbKept (headlines.map Article.title) breaking) ∧
    NewsService.arbCombine [artA, artB] [artB2, artC] = [artA, artB, artC] := by
  constructor
  · intro headlines breaking
    exact arbDedupGo_eq_kept breaking headlines (headlines.map Article.title)
  · decide

/-! ## Claim C7: API calls issued by fetchForArbitrage -/

/-- `fetchHeadlines` never issues more than one API call. -/
theorem fetchHeadlines_calls_le_one (now : Nat) (today : SimpleDate)
    (apiResult : Option (List Article)) (s : NewsState) :
    (NewsService.fetchHeadlines now today apiResult s).2.2 ≤ 1 := by
  unfold NewsService.fetchHeadlines
  by_cases h1 : s.hasNewsApiKey = false
  · simp [h1]
  by_cases h2 : NewsService.headlineCacheFresh now s = true
  · simp [h1, h2]
  by_cases h3 : (NewsService.canMakeRequest today s).1 = false
  · simp [h1, h2, h3]
  · cases apiResult <;> simp [h1, h2, h3]

/-- `fetchHeadlines` preserves the API-key flag and, when the state starts
on today's date, keeps the date and increments the counter by at most 1. -/
theorem fetchHeadlines_state (now : Nat) (today : SimpleDate)
    (apiResult : Option (List Article)) (s : NewsState) (hd : s.lastResetDate = today) :
    (NewsService.fetchHeadlines now today apiResult s).2.1.hasNewsApiKey = s.hasNewsApiKey ∧
    (NewsService.fetchHeadlines now today apiResult s).2.1.lastResetDate = today ∧
    (NewsService.fetchHeadlines now today apiResult s).2.1.dailyRequestCount ≤
      s.dailyRequestCount + (NewsService.fetchHeadlines now today apiResult s).2.2 := by
  have hchk : NewsService.checkDailyReset today s = s := by
    unfold NewsService.checkDailyReset
    rw [if_neg]
    simp [hd]
  unfold NewsService.fetchHeadlines
  by_cases h1 : s.hasNewsApiKey = false
  · simp [h1, hd]
  by_cases h2 : NewsService.headlineCacheFresh now s = true
  · simp [h1, h2, hd]
  by_cases h3 : NewsService.MAX_DAILY_REQUESTS ≤ s.dailyRequestCount
  · simp [h1, h2, h3, NewsService.canMakeRequest, hchk, hd]
  · cases apiResult <;>
      simp [h1, h2, h3, NewsService.canMakeRequest, hchk, NewsService.trackRequest, hd]

/-- With an API key, a stale or absent headline cache, a state already on
today's date and budget available, `fetchHeadlines` issues exactly one API
call and increments the counter by one. -/
theorem fetchHeadlines_stale (now : Nat) (today : SimpleDate)
    (apiResult : Option (List Article)) (s : NewsState)
    (hkey : s.hasNewsApiKey = true) (hstale : NewsService.headlineCacheFresh now s = false)
    (hd : s.lastResetDate = today)
    (hb : s.dailyRequestCount < NewsService.MAX_DAILY_REQUESTS) :
    (NewsService.fetchHeadlines now today apiResult s).2.2 = 1 ∧
    (NewsService.fetchHeadlines now today apiResult s).2.1.dailyRequestCount =
      s.dailyRequestCount + 1 ∧
    (NewsService.fetchHeadlines now today apiResult s).2.1.lastResetDate = today ∧
    (NewsService.fetchHeadlines now today apiResult s).2.1.hasNewsApiKey = true := by
  have hchk : NewsService.checkDailyReset today s = s := by
    unfold NewsService.checkDailyReset
    rw [if_neg]
    simp [hd]
  have hb2 : ¬ NewsService.MAX_DAILY_REQUESTS ≤ s.dailyRequestCount := Nat.not_le.mpr hb
  unfold NewsService.fetchHeadlines
  cases apiResult <;>
    simp [hkey, hstale, hb2, NewsService.canMakeRequest, hchk, NewsService.trackRequest, hd]

/-- With an API key and a fresh headline cache, `fetchHeadlines` issues no
API call and leaves the state unchanged. -/
theorem fetchHeadlines_fresh (now : Nat) (today : SimpleDate)
    (apiResult : Option (List Article)) (s : NewsState)
    (hkey : s.hasNewsApiKey = true) (hfresh : NewsService.headlineCacheFresh now s = true) :
    NewsService.fetchHeadlines now today apiResult s =
      (NewsService.cachedHeadlines s, s, 0) := by
  unfold NewsService.fetchHeadlines
  simp [hkey, hfresh]

def artH : Article :=
  { title := "H", description := "headline", url := "uH", source := "s1",
    publishedAt := 0, sentiment := .neutral, relevanceScore := 1, categories := [] }

def artBrk : Article :=
  { title := "K", description := "breaking", url := "uK", source := "s2",
    publishedAt := 1, sentiment := .neutral, relevanceScore := 1, categories := [] }

def newsStateC7 : NewsState :=
  { headlineCache := some ([artH], 0)
    dailyRequestCount := 0
    lastResetDate := dJan15
    searchesThisCycle := 0
    hasNewsApiKey := true }

/-- Claim C7, counterexample.  With an API key configured, the daily budget
entirely unused (0 of 95) and a headline cache 1 second old, an invocation
of `fetchForArbitrage` issues exactly one underlying API call (the breaking
search), not two: the headline half is served from the 30-minute cache. -/
theorem claim_C7_counterexample :
    (NewsService.fetchForArbitrage 1000 dJan15 none (some [artBrk]) newsStateC7).2.2 = 1 ∧
    newsStateC7.dailyRequestCount + 2 ≤ NewsService.MAX_DAILY_REQUESTS ∧
    newsStateC7.hasNewsApiKey = true := by
  decide

/-- Claim C7, amended.  `fetchForArbitrage` issues at most two underlying
API calls; when an API key is configured, the state is on today's date and
the daily budget allows both calls, it issues exactly two calls if the
headline cache is stale or absent, and exactly one call (the breaking
search alone) if the headline cache is fresh. -/
theorem claim_C7_amended (now : Nat) (today : SimpleDate)
    (headApi breakingApi : Option (List Article)) (s : NewsState) :
    (NewsService.fetchForArbitrage now today headApi breakingApi s).2.2 ≤ 2 ∧
    (s.hasNewsApiKey = true → s.lastResetDate = today →
      s.dailyRequestCount + 1 < NewsService.MAX_DAILY_REQUESTS →
      (NewsService.headlineCacheFresh now s = false →
        (NewsService.fetchForArbitrage now today headApi breakingApi s).2.2 = 2) ∧
      (NewsService.headlineCacheFresh now s = true →
        (NewsService.fetchForArbitrage now today headApi breakingApi s).2.2 = 1)) := by
  constructor
  · have h1 := fetchHeadlines_calls_le_one now today headApi s
    unfold NewsService.fetchForArbitrage
    by_cases hq : (NewsService.canMakeRequest today
        (NewsService.fetchHeadlines now today headApi s).2.1).1 = false
    · simp only [hq, if_true, reduceIte]
      omega
    by_cases hk : (NewsService.trackRequest (NewsService.canMakeRequest today
        (NewsService.fetchHeadlines now today headApi s).2.1).2).hasNewsApiKey = false
    · simp [hq, hk]
      omega
    cases breakingApi <;> simp [hq, hk] <;> omega
  · intro hkey hd hb
    constructor
    · intro hstale
      obtain ⟨hc1, hc2, hc3, hc4⟩ :=
        fetchHeadlines_stale now today headApi s hkey hstale hd (by omega)
      have hchk2 : NewsService.checkDailyReset today
          (NewsService.fetchHeadlines now today headApi s).2.1 =
          (NewsService.fetchHeadlines now today headApi s).2.1 := by
        unfold NewsService.checkDailyReset
        rw [if_neg]
        simp [hc3]
      have hb2 : ¬ NewsService.MAX_DAILY_REQUESTS ≤
          (NewsService.fetchHeadlines now today headApi s).2.1.dailyRequestCount := by
        rw [hc2]; omega
      unfold NewsService.fetchForArbitrage
      cases breakingApi <;>
        simp [NewsService.canMakeRequest, hchk2, hb2, NewsService.trackRequest, hc4, hc1]
    · intro hfresh
      have hh := fetchHeadlines_fresh now today headApi s hkey hfresh
      have hchk : NewsService.checkDailyReset today s = s := by
        unfold NewsService.checkDailyReset
        rw [if_neg]
        simp [hd]
      have hb2 : ¬ NewsService.MAX_DAILY_REQUESTS ≤ s.dailyRequestCount := by omega
      unfold NewsService.fetchForArbitrage
      cases breakingApi <;>
        simp [hh, NewsService.canMakeRequest, hchk, hb2, NewsService.trackRequest, hkey]

/-- Witness for `claim_C7_amended`: two calls from an absent cache. -/
theorem claim_C7_witness :
    (NewsService.fetchForArbitrage 1000 dJan15 (some [artH]) (some [artBrk])
      newsStateC1).2.2 = 2 :=
  ((claim_C7_amended 1000 dJan15 (some [artH]) (some [artBrk]) newsStateC1).2
    rfl rfl (by decide)).1 (by decide)

/-! ## Claim C5: the per-cycle search counter across a scan cycle -/

theorem checkDailyReset_searches (today : SimpleDate) (s : NewsState) :
    (NewsService.checkDailyReset today s).searchesThisCycle = s.searchesThisCycle := by
  unfold NewsService.checkDailyReset
  split <;> rfl

theorem fetchHeadlines_searches (now : Nat) (today : SimpleDate)
    (apiResult : Option (List Article)) (s : NewsState) :
    (NewsService.fetchHeadlines now today apiResult s).2.1.searchesThisCycle =
      s.searchesThisCycle := by
  have hc := checkDailyReset_searches today s
  unfold NewsService.fetchHeadlines
  by_cases h1 : s.hasNewsApiKey = false
  · simp [h1]
  by_cases h2 : NewsService.headlineCacheFresh now s = true
  · simp [h1, h2]
  by_cases h3 : NewsService.MAX_DAILY_REQUESTS ≤
      (NewsService.checkDailyReset today s).dailyRequestCount
  · simp [h1, h2, h3, NewsService.canMakeRequest, hc]
  · cases apiResult <;>
      simp [h1, h2, h3, NewsService.canMakeRequest, NewsService.trackRequest, hc]

theorem fetchForArbitrage_searches (now : Nat) (today : SimpleDate)
    (headApi breakingApi : Option (List Article)) (s : NewsState) :
    (NewsService.fetchForArbitrage now today headApi breakingApi s).2.1.searchesThisCycle =
      s.searchesThisCycle := by
  have hh := fetchHeadlines_searches now today headApi s
  have hc := checkDailyReset_searches today (NewsService.fetchHeadlines now today headApi s).2.1
  unfold NewsService.fetchForArbitrage
  by_cases hq : NewsService.MAX_DAILY_REQUESTS ≤ (NewsService.checkDailyReset today
      (NewsService.fetchHeadlines now today headApi s).2.1).dailyRequestCount
  · simp [hq, NewsService.canMakeRequest, hc, hh]
  by_cases hk : (NewsService.checkDailyReset today
      (NewsService.fetchHeadlines now today headApi s).2.1).hasNewsApiKey = false
  · simp [hq, hk, NewsService.canMakeRequest, NewsService.trackRequest, hc, hh]
  cases breakingApi <;>
    simp [hq, hk, NewsService.canMakeRequest, NewsService.trackRequest, hc, hh]

/-- The effect of one `scanAndTrade` cycle on the `NewsService` state.
`canTradeOk` is the outcome of the orchestrator's `canTrade()` entry guard
and `stratActive` of `newsArbStrategy.isActive()`: when either is false the
cycle returns before touching the news service; otherwise the only news
calls the cycle makes are the two inside `findOpportunities` →
`fetchBreakingNews` → `fetchForArbitrage` (the later pipeline stages — LLM
extraction, Gamma market fetch, evaluation, execution and reporting — never
call into the news service).  `scanAndTrade` contains no call to
`resetCycleCounter`. -/
def scanCycleNewsState (canTradeOk stratActive : Bool) (now : Nat) (today : SimpleDate)
    (headApi breakingApi : Option (List Article)) (s : NewsState) : NewsState :=
  if canTradeOk = false then s
  else if stratActive = false then s
  else (NewsService.fetchForArbitrage now today headApi breakingApi s).2.1

def newsStateC5 : NewsState :=
  { headlineCache := none
    dailyRequestCount := 10
    lastResetDate := dJan15
    searchesThisCycle := 5
    hasNewsApiKey := true }

/-- Claim C5 (code bug).  A `scanAndTrade` cycle never resets — indeed never
changes — `searchesThisCycle`: the orchestrator never invokes
`resetCycleCounter` (contradicting that function's own doc comment,
"called at start of each scan").  In particular a cycle starting with
`searchesThisCycle = 5` still has 5 afterwards, where the claimed reset
(`resetCycleCounter`) would give 0. -/
theorem claim_C5_bug :
    (∀ (canTradeOk stratActive : Bool) (now : Nat) (today : SimpleDate)
      (headApi breakingApi : Option (List Article)) (s : NewsState),
      (scanCycleNewsState canTradeOk stratActive now today headApi breakingApi
        s).searchesThisCycle = s.searchesThisCycle) ∧
    (scanCycleNewsState true true 1000 dFeb15 none (some [artBrk])
      newsStateC5).searchesThisCycle = 5 ∧
    (NewsService.resetCycleCounter newsStateC5).searchesThisCycle = 0 := by
  have key : ∀ (canTradeOk stratActive : Bool) (now : Nat) (today : SimpleDate)
      (headApi breakingApi : Option (List Article)) (s : NewsState),
      (scanCycleNewsState canTradeOk stratActive now today headApi breakingApi
        s).searchesThisCycle = s.searchesThisCycle := by
    intro canTradeOk stratActive now today headApi breakingApi s
    unfold scanCycleNewsState
    by_cases h1 : canTradeOk = false
    · simp [h1]
    by_cases h2 : stratActive = false
    · simp [h1, h2]
    · simpa [h1, h2] using fetchForArbitrage_searches now today headApi breakingApi s
  exact ⟨key, key true true 1000 dFeb15 none (some [artBrk]) newsStateC5, rfl⟩

/-! ## Trading data model (types.ts, trading-config.ts)

`TradingDecision.reasoning` (a log/report string) is not modelled: no claim
depends on its content.  The YES/NO outcome is carried as a string as in
the source. -/

structure MarketOpportunity where
  marketId : String
  question : String
  outcome : String
  currentPrice : ℚ
  predictedProbability : ℚ
  confidence : ℚ
  expectedValue : ℚ
  newsSignals : List String
  riskScore : ℚ
deriving DecidableEq

structure TradingDecision where
  shouldTrade : Bool
  marketId : String
  outcome : String
  size : ℚ
  price : ℚ
  confidence : ℚ
deriving DecidableEq

structure TradingHours where
  startHour : Nat
  endHour : Nat
deriving DecidableEq

structure TradingConfig where
  unsupervisedMode : Bool
  maxPositionSize : ℚ
  minConfidenceThreshold : ℚ
  maxDailyTrades : Nat
  maxOpenPositions : Nat
  riskLimitPerTrade : ℚ
  tradingHoursRestriction : Option TradingHours
deriving DecidableEq

namespace OpportunityEvaluator

/-- `OpportunityEvaluator.evaluate`: flat position size, confidence gate. -/
def evaluate (cfg : TradingConfig) (opp : MarketOpportunity) : TradingDecision :=
  let positionSize := min cfg.maxPositionSize cfg.riskLimitPerTrade
  { shouldTrade := decide (cfg.minConfidenceThreshold ≤ opp.confidence) &&
      decide (0 < positionSize)
    marketId := opp.marketId
    outcome := opp.outcome
    size := positionSize
    price := opp.currentPrice
    confidence := opp.confidence }

end OpportunityEvaluator

namespace AutonomousTrading

/-- `canTrade()`: daily-trade cap, open-position cap, optional hours. -/
def canTrade (cfg : TradingConfig) (dailyTradeCount positionCount hour : Nat) : Bool :=
  if cfg.maxDailyTrades ≤ dailyTradeCount then false
  else if cfg.maxOpenPositions ≤ positionCount then false
  else
    match cfg.tradingHoursRestriction with
    | some r => if hour < r.startHour ∨ r.endHour ≤ hour then false else true
    | none => true

end AutonomousTrading

/-! ## handleTrade and its deposit-recovery path (index.ts)

The balance manager, trade executor and position manager are collaborators;
one `handleTrade` run consults them through a `TradeEnv` oracle describing
what each collaborator would answer.  The observable behaviour is the
ordered list of collaborator calls (`TradeEvent`s) plus the number of
successful trades (the increments of `dailyTradeCount`). -/

structure TradeResult where
  success : Bool
  orderId : Option String
  error : Option String
deriving DecidableEq

structure BalanceCheck where
  hasEnoughBalance : Bool
  usdcBalance : ℚ
deriving DecidableEq

/-- Oracle for one `handleTrade` invocation: the balance check's answer, the
result of the first `executeTrade`, whether `handleL2Deposit` succeeds, the
result of the retried `executeTrade`, and the position count reported after
a `refreshPositions`. -/
structure TradeEnv where
  balance : BalanceCheck
  firstResult : TradeResult
  depositSuccess : Bool
  retryResult : TradeResult
  refreshedPositionCount : Nat
deriving DecidableEq

inductive TradeEvent where
  | checkBalance (amount : ℚ)
  | executeTrade
  | l2Deposit (amount : ℚ)
  | wait (ms : Nat)
  | refreshPositions
deriving DecidableEq

namespace AutonomousTrading

/-- `tradeResult.error && tradeResult.error.includes("not enough balance /
allowance")` — the recognized insufficient balance/allowance signature. -/
def errorMatchesSig (e : Option String) : Bool :=
  match e with
  | none => false
  | some msg => strContains msg "not enough balance / allowance"

/-- `handleTrade(decision)`: returns the ordered collaborator-call trace and
the number of `dailyTradeCount` increments (0 or 1). -/
def handleTrade (env : TradeEnv) (size : ℚ) : List TradeEvent × Nat :=
  if env.balance.hasEnoughBalance = false then
    ([.checkBalance size], 0)
  else if env.firstResult.success then
    ([.checkBalance size, .executeTrade, .refreshPositions], 1)
  else if errorMatchesSig env.firstResult.error then
    if env.depositSuccess then
      if env.retryResult.success then
        ([.checkBalance size, .executeTrade, .l2Deposit size, .wait 5000,
          .executeTrade, .refreshPositions], 1)
      else
        ([.checkBalance size, .executeTrade, .l2Deposit size, .wait 5000,
          .executeTrade], 0)
    else
      ([.checkBalance size, .executeTrade, .l2Deposit size], 0)
  else
    ([.checkBalance size, .executeTrade], 0)

end AutonomousTrading

def isExecuteEvent : TradeEvent → Bool
  | .executeTrade => true
  | _ => false

def isDepositEvent : TradeEvent → Bool
  | .l2Deposit _ => true
  | _ => false

def isWaitEvent : TradeEvent → Bool
  | .wait _ => true
  | _ => false

/-! ## Claim C2: exactly one deposit-and-retry recovery -/

/-- Claim C2.  When the balance check passes and the first `executeTrade`
fails with the insufficient balance/allowance signature, `handleTrade`
performs exactly one `handleL2Deposit` of the decision's size; when the
deposit succeeds, exactly one fixed 5-second wait and exactly one retry of
`executeTrade` follow, and — whatever the retry returns, including the same
signature — no second deposit, wait, or further `executeTrade` occurs;
when the deposit fails, the trade is abandoned with no retry. -/
theorem claim_C2 (env : TradeEnv) (size : ℚ)
    (hbal : env.balance.hasEnoughBalance = true)
    (hfail : env.firstResult.success = false)
    (hsig : AutonomousTrading.errorMatchesSig env.firstResult.error = true) :
    ((AutonomousTrading.handleTrade env size).1.filter isDepositEvent = [.l2Deposit size]) ∧
    (env.depositSuccess = true →
      (AutonomousTrading.handleTrade env size).1.filter isWaitEvent = [.wait 5000] ∧
      ((AutonomousTrading.handleTrade env size).1.filter isExecuteEvent).length = 2 ∧
      (AutonomousTrading.handleTrade env size).1 =
        [.checkBalance size, .executeTrade, .l2Deposit size, .wait 5000, .executeTrade] ++
          (if env.retryResult.success then [.refreshPositions] else [])) ∧
    (env.depositSuccess = false →
      (AutonomousTrading.handleTrade env size).1.filter isWaitEvent = [] ∧
      ((AutonomousTrading.handleTrade env size).1.filter isExecuteEvent).length = 1) := by
  unfold AutonomousTrading.handleTrade
  rw [hbal, hfail, hsig]
  by_cases hd : env.depositSuccess = true
  · by_cases hr : env.retryResult.success = true
    · simp [hd, hr, isDepositEvent, isWaitEvent, isExecuteEvent]
    · simp only [Bool.not_eq_true] at hr
      simp [hd, hr, isDepositEvent, isWaitEvent, isExecuteEvent]
  · simp only [Bool.not_eq_true] at hd
    simp [hd, isDepositEvent, isWaitEvent, isExecuteEvent]

def failedTradeC2 : TradeResult :=
  { success := false
    orderId := none
    error := some "OrderError: not enough balance / allowance" }

def tradeEnvC2 : TradeEnv :=
  { balance := { hasEnoughBalance := true, usdcBalance := 100 }
    firstResult := failedTradeC2
    depositSuccess := true
    retryResult := failedTradeC2
    refreshedPositionCount := 1 }

/-- Witness for `claim_C2`: a retry that fails again with the very same
signature still yields one deposit, one wait, and two executions in total. -/
theorem claim_C2_witness :
    ((AutonomousTrading.handleTrade tradeEnvC2 20).1.filter isDepositEvent =
      [.l2Deposit 20]) ∧
    ((AutonomousTrading.handleTrade tradeEnvC2 20).1.filter isWaitEvent =
      [.wait 5000]) ∧
    ((AutonomousTrading.handleTrade tradeEnvC2 20).1.filter isExecuteEvent).length = 2 :=
  ⟨(claim_C2 tradeEnvC2 20 rfl rfl (by decide)).1,
    ((claim_C2 tradeEnvC2 20 rfl rfl (by decide)).2.1 rfl).1,
    ((claim_C2 tradeEnvC2 20 rfl rfl (by decide)).2.1 rfl).2.1⟩

/-! ## The scanAndTrade evaluation loop (index.ts lines 269-297)

`runLoop` models `for (const opportunity of opportunities) { if
(!this.canTrade()) break; ... }`.  Each opportunity is paired with the
`TradeEnv` oracle its `handleTrade` call would see.  A successful trade
increments `dailyTradeCount` and refreshes the position count; in
monitoring mode (`unsupervisedMode = false`) decisions are logged but
never executed. -/

structure LoopState where
  dailyTradeCount : Nat
  positionCount : Nat
  decisions : List TradingDecision
  executed : List String
deriving DecidableEq

namespace AutonomousTrading

/-- The body of one loop iteration that passed the guard: evaluate the
opportunity, record the decision, and — when `shouldTrade` holds in
unsupervised mode — run `handleTrade`, add its trade-count increment, and
refresh the position count if the trade refreshed positions. -/
def loopStep (cfg : TradingConfig) (opp : MarketOpportunity) (env : TradeEnv)
    (s : LoopState) : LoopState :=
  let d := OpportunityEvaluator.evaluate cfg opp
  let s1 := { s with decisions := s.decisions ++ [d] }
  if d.shouldTrade && cfg.unsupervisedMode then
    let r := handleTrade env d.size
    { s1 with
      executed := s1.executed ++ [opp.marketId]
      dailyTradeCount := s1.dailyTradeCount + r.2
      positionCount :=
        if (r.1.contains TradeEvent.refreshPositions) then env.refreshedPositionCount
        else s1.positionCount }
  else s1

def runLoop (cfg : TradingConfig) (hour : Nat) :
    List (MarketOpportunity × TradeEnv) → LoopState → LoopState
  | [], s => s
  | (opp, env) :: rest, s =>
    if canTrade cfg s.dailyTradeCount s.positionCount hour = false then s
    else runLoop cfg hour rest (loopStep cfg opp env s)

theorem runLoop_cons (cfg : TradingConfig) (hour : Nat) (opp : MarketOpportunity)
    (env : TradeEnv) (rest : List (MarketOpportunity × TradeEnv)) (s : LoopState) :
    runLoop cfg hour ((opp, env) :: rest) s =
      if canTrade cfg s.dailyTradeCount s.positionCount hour = false then s
      else runLoop cfg hour rest (loopStep cfg opp env s) := rfl

end AutonomousTrading

/-! ## Claim C3: the loop after the daily-trade guard trips -/

def cfgC3 : TradingConfig :=
  { unsupervisedMode := true
    maxPositionSize := 10
    minConfidenceThreshold := mkRat 7 10
    maxDailyTrades := 1
    maxOpenPositions := 20
    riskLimitPerTrade := 50
    tradingHoursRestriction := none }

def oppC3a : MarketOpportunity :=
  { marketId := "m1"
    question := "q1"
    outcome := "YES"
    currentPrice := 0
    predictedProbability := mkRat 95 100
    confidence := mkRat 95 100
    expectedValue := 19
    newsSignals := []
    riskScore := mkRat 1 10 }

def oppC3b : MarketOpportunity :=
  { marketId := "m2"
    question := "q2"
    outcome := "YES"
    currentPrice := 0
    predictedProbability := mkRat 95 100
    confidence := mkRat 95 100
    expectedValue := 19
    newsSignals := []
    riskScore := mkRat 1 10 }

def okTradeC3 : TradeResult :=
  { success := true
    orderId := some "o1"
    error := none }

def tradeEnvC3 : TradeEnv :=
  { balance := { hasEnoughBalance := true, usdcBalance := 100 }
    firstResult := okTradeC3
    depositSuccess := false
    retryResult := okTradeC3
    refreshedPositionCount := 1 }

def initLoopC3 : LoopState :=
  { dailyTradeCount := 0
    positionCount := 0
    decisions := []
    executed := [] }

/-- Claim C3, counterexample.  With `maxDailyTrades = 1` and two
opportunities whose first trade succeeds, the guard trips before the second
opportunity; the loop `break`s, so the cycle records exactly one decision —
the remaining opportunity gets no decision entry at all (in particular it
is not "recorded as skipped" in the cycle's decisions). -/
theorem claim_C3_counterexample :
    AutonomousTrading.canTrade cfgC3 1 1 12 = false ∧
    (AutonomousTrading.runLoop cfgC3 12 [(oppC3a, tradeEnvC3), (oppC3b, tradeEnvC3)]
        initLoopC3).decisions.map TradingDecision.marketId = ["m1"] ∧
    (AutonomousTrading.runLoop cfgC3 12 [(oppC3a, tradeEnvC3), (oppC3b, tradeEnvC3)]
        initLoopC3).executed = ["m1"] := by
  decide

/-- Claim C3, amended.  From the moment the daily-trade guard (`canTrade`)
trips mid-cycle, no further executions are issued for the remaining
opportunities — but the loop `break`s outright, so those remaining
opportunities are not evaluated and receive no decision entries (skipped or
otherwise) in the cycle's decisions; they appear only in the opportunities
list handed to the report.  Formally: once the loop state fails `canTrade`,
the loop is inert, and a run over `done ++ rest` whose state after `done`
fails `canTrade` equals the run over `done` alone. -/
theorem claim_C3_amended :
    (∀ (cfg : TradingConfig) (hour : Nat) (s : LoopState),
      AutonomousTrading.canTrade cfg s.dailyTradeCount s.positionCount hour = false →
      ∀ (items : List (MarketOpportunity × TradeEnv)),
        AutonomousTrading.runLoop cfg hour items s = s) ∧
    (∀ (cfg : TradingConfig) (hour : Nat)
      (done rest : List (MarketOpportunity × TradeEnv)) (s0 : LoopState),
      AutonomousTrading.canTrade cfg
        (AutonomousTrading.runLoop cfg hour done s0).dailyTradeCount
        (AutonomousTrading.runLoop cfg hour done s0).positionCount hour = false →
      AutonomousTrading.runLoop cfg hour (done ++ rest) s0 =
        AutonomousTrading.runLoop cfg hour done s0) := by
  have inert : ∀ (cfg : TradingConfig) (hour : Nat) (s : LoopState),
      AutonomousTrading.canTrade cfg s.dailyTradeCount s.positionCount hour = false →
      ∀ (items : List (MarketOpportunity × TradeEnv)),
        AutonomousTrading.runLoop cfg hour items s = s := by
    intro cfg hour s h items
    cases items with
    | nil => rfl
    | cons p rest =>
      cases p with
      | mk opp env =>
        rw [AutonomousTrading.runLoop_cons, if_pos h]
  refine ⟨inert, ?_⟩
  intro cfg hour done
  induction done with
  | nil =>
    intro rest s0 h
    simpa using inert cfg hour s0 h rest
  | cons p ds ih =>
    intro rest s0 h
    cases p with
    | mk opp env =>
      by_cases hbr : AutonomousTrading.canTrade cfg s0.dailyTradeCount s0.positionCount
          hour = false
      · have h1 : AutonomousTrading.runLoop cfg hour ((opp, env) :: ds) s0 = s0 :=
          inert cfg hour s0 hbr _
        have h2 : AutonomousTrading.runLoop cfg hour (((opp, env) :: ds) ++ rest) s0 = s0 :=
          inert cfg hour s0 hbr _
        rw [h1, h2]
      · rw [AutonomousTrading.runLoop_cons, if_neg hbr] at h
        rw [List.cons_append, AutonomousTrading.runLoop_cons, if_neg hbr,
          AutonomousTrading.runLoop_cons, if_neg hbr]
        exact ih rest (AutonomousTrading.loopStep cfg opp env s0) h

def cfgC3w : TradingConfig :=
  { unsupervisedMode := true
    maxPositionSize := 10
    minConfidenceThreshold := mkRat 7 10
    maxDailyTrades := 0
    maxOpenPositions := 20
    riskLimitPerTrade := 50
    tradingHoursRestriction := none }

/-- Witness for `claim_C3_amended`: a tripped guard keeps the loop inert. -/
theorem claim_C3_witness :
    AutonomousTrading.runLoop cfgC3w 12 ([] ++ [(oppC3b, tradeEnvC3)]) initLoopC3 =
      AutonomousTrading.runLoop cfgC3w 12 [] initLoopC3 :=
  claim_C3_amended.2 cfgC3w 12 [] [(oppC3b, tradeEnvC3)] initLoopC3 (by decide)

/-! ## Claim C4: invariants of NewsArbStrategy.findOpportunities -/

structure NewsArbConfig where
  enabled : Bool
  maxPrice : ℚ
  marketFetchLimit : Nat
deriving DecidableEq

structure MarketMatch where
  conditionId : String
  question : String
  confirmedOutcome : String
  reasoning : String
  currentPrice : ℚ
deriving DecidableEq

namespace NewsArbStrategy

/-- The opportunity object pushed by `findOpportunities` for a surviving
match.  `maxPositionSize` stands for `Number(process.env.MAX_POSITION_SIZE)
|| 20`. -/
def mkOpportunity (maxPositionSize : ℚ) (m : MarketMatch) : MarketOpportunity :=
  { marketId := m.conditionId
    question := m.question
    outcome := m.confirmedOutcome
    currentPrice := m.currentPrice
    predictedProbability := mkRat 95 100
    confidence := mkRat 95 100
    expectedValue := (mkRat 95 100 - m.currentPrice) * maxPositionSize
    newsSignals := ["Confirmed event matched to market",
      "LLM reasoning: " ++ m.reasoning]
    riskScore := mkRat 1 10 }

/-- Step 4 of `findOpportunities`: for each market match, skip it if an
open position already holds its `conditionId`, otherwise keep it only when
its price is below the configured ceiling.  `openPositions` is the key set
of the open-positions map. -/
def buildOpportunities (cfg : NewsArbConfig) (maxPositionSize : ℚ)
    (openPositions : List String) : List MarketMatch → List MarketOpportunity
  | [] => []
  | m :: rest =>
    if openPositions.contains m.conditionId then
      buildOpportunities cfg maxPositionSize openPositions rest
    else if m.currentPrice < cfg.maxPrice then
      mkOpportunity maxPositionSize m ::
        buildOpportunities cfg maxPositionSize openPositions rest
    else
      buildOpportunities cfg maxPositionSize openPositions rest

end NewsArbStrategy

/-- Claim C4.  Every opportunity returned by `findOpportunities` has
`currentPrice` strictly below the configured `maxPrice` ceiling and a
`marketId` that is not among the open positions; consequently a match whose
`conditionId` is an open position never yields an opportunity (and so never
reaches `OpportunityEvaluator.evaluate`, which the orchestrator applies
only to members of the returned list). -/
theorem claim_C4 (cfg : NewsArbConfig) (maxPositionSize : ℚ)
    (openPositions : List String) (ms : List MarketMatch)
    (opp : MarketOpportunity)
    (hmem : opp ∈ NewsArbStrategy.buildOpportunities cfg maxPositionSize
      openPositions ms) :
    opp.currentPrice < cfg.maxPrice ∧
    openPositions.contains opp.marketId = false ∧
    ∀ m ∈ ms, openPositions.contains m.conditionId = true →
      opp.marketId ≠ m.conditionId := by
  have main : opp.currentPrice < cfg.maxPrice ∧
      openPositions.contains opp.marketId = false := by
    induction ms with
    | nil => simp [NewsArbStrategy.buildOpportunities] at hmem
    | cons m rest ih =>
      unfold NewsArbStrategy.buildOpportunities at hmem
      by_cases h1 : openPositions.contains m.conditionId = true
      · rw [if_pos h1] at hmem
        exact ih hmem
      · rw [if_neg h1] at hmem
        by_cases h2 : m.currentPrice < cfg.maxPrice
        · rw [if_pos h2] at hmem
          rcases List.mem_cons.mp hmem with rfl | hmemr
          · refine ⟨h2, ?_⟩
            show openPositions.contains m.conditionId = false
            simpa using h1
          · exact ih hmemr
        · rw [if_neg h2] at hmem
          exact ih hmem
  refine ⟨main.1, main.2, ?_⟩
  intro m2 _ hopen he
  have hc := main.2
  rw [he, hopen] at hc
  simp at hc

def cfgC4 : NewsArbConfig :=
  { enabled := true
    maxPrice := mkRat 9 10
    marketFetchLimit := 100 }

def matchC4 : MarketMatch :=
  { conditionId := "0xc1"
    question := "Fed decrease rates 50+ bps March 2026?"
    confirmedOutcome := "YES"
    reasoning := "confirmed by news"
    currentPrice := mkRat 72 100 }

/-- Witness for `claim_C4` at a concrete surviving match. -/
theorem claim_C4_witness :
    (NewsArbStrategy.mkOpportunity 20 matchC4).currentPrice < cfgC4.maxPrice ∧
    (["0xother"] : List String).contains
      (NewsArbStrategy.mkOpportunity 20 matchC4).marketId = false :=
  ⟨(claim_C4 cfgC4 20 ["0xother"] [matchC4] (NewsArbStrategy.mkOpportunity 20 matchC4)
      (by simp +decide [NewsArbStrategy.buildOpportunities])).1,
    (claim_C4 cfgC4 20 ["0xother"] [matchC4] (NewsArbStrategy.mkOpportunity 20 matchC4)
      (by simp +decide [NewsArbStrategy.buildOpportunities])).2.1⟩

/-! ## Claim C6: LLM retry policy (NewsArbStrategy.callLLM) -/

inductive LLMOutcome where
  | ok (text : String)
  | err (msg : String)
deriving DecidableEq

structure LLMTrace where
  attempts : Nat
  delays : List Nat
  result : Except String String

namespace NewsArbStrategy

/-- `msg.includes("503") || msg.includes("overloaded") ||
msg.includes("UNAVAILABLE")`. -/
def isRetryableErr (msg : String) : Bool :=
  strContains msg "503" || strContains msg "overloaded" || strContains msg "UNAVAILABLE"

/-- One attempt's outcome: an empty model response is thrown (and then
classified) exactly like a model error with message "Empty response from
model". -/
def attemptResult (o : LLMOutcome) : Except String String :=
  match o with
  | .ok t => if t.length = 0 then .error "Empty response from model" else .ok t
  | .err m => .error m

/-- The `for (attempt = 1; attempt <= maxRetries; attempt++)` loop of
`callLLM`.  `outcomes i` is the oracle for attempt `i`.  The trace collects
the number of attempts made, the backoff delays slept (ms), and the final
result.  `fuel` bounds the recursion; `callLLM` supplies `maxRetries`,
which is enough since the loop retries only while `attempt < maxRetries`. -/
def callLLMGo (outcomes : Nat → LLMOutcome) (maxRetries : Nat) :
    Nat → Nat → LLMTrace
  | 0, _ => ⟨0, [], .error "LLM call failed after all retries"⟩
  | fuel + 1, attempt =>
    match attemptResult (outcomes attempt) with
    | .ok t => ⟨1, [], .ok t⟩
    | .error m =>
      if isRetryableErr m && decide (attempt < maxRetries) then
        let rest := callLLMGo outcomes maxRetries fuel (attempt + 1)
        ⟨rest.attempts + 1, attempt * 10000 :: rest.delays, rest.result⟩
      else ⟨1, [], .error m⟩

/-- `callLLM(prompt, maxRetries)`; the source default is `maxRetries = 3`. -/
def callLLM (outcomes : Nat → LLMOutcome) (maxRetries : Nat) : LLMTrace :=
  callLLMGo outcomes maxRetries maxRetries 1

end NewsArbStrategy

def allTransientC6 : Nat → LLMOutcome := fun _ => .err "503 Service Unavailable"

/-- Claim C6, counterexample.  When every attempt fails with a transient
(503) error, `callLLM` makes exactly 3 attempts but sleeps only TWO
inter-attempt delays — 10s and 20s — before raising the failure: the 30s
backoff would precede a fourth attempt that never exists (the loop retries
only while `attempt < maxRetries`). -/
theorem claim_C6_counterexample :
    (NewsArbStrategy.callLLM allTransientC6 3).attempts = 3 ∧
    (NewsArbStrategy.callLLM allTransientC6 3).delays = [10000, 20000] ∧
    (NewsArbStrategy.callLLM allTransientC6 3).result =
      .error "503 Service Unavailable" ∧
    (NewsArbStrategy.callLLM allTransientC6 3).delays ≠ [10000, 20000, 30000] :=
  ⟨by decide, by decide, rfl, by decide⟩

/-- Claim C6, amended.  If the LLM fails with a transient
(503/overloaded/UNAVAILABLE) error on every attempt, `callLLM` makes
exactly 3 attempts with inter-attempt delays of 10s and 20s (no 30s delay
occurs) and raises the final attempt's error; if the first failure is
non-transient, exactly 1 attempt is made, with no delay, and the error is
raised immediately. -/
theorem claim_C6_amended (outcomes : Nat → LLMOutcome) :
    ((∀ i, 1 ≤ i → i ≤ 3 → ∃ m, outcomes i = .err m ∧
        NewsArbStrategy.isRetryableErr m = true) →
      (NewsArbStrategy.callLLM outcomes 3).attempts = 3 ∧
      (NewsArbStrategy.callLLM outcomes 3).delays = [10000, 20000] ∧
      ∃ m, outcomes 3 = .err m ∧
        (NewsArbStrategy.callLLM outcomes 3).result = .error m) ∧
    ((∃ m, outcomes 1 = .err m ∧ NewsArbStrategy.isRetryableErr m = false) →
      (NewsArbStrategy.callLLM outcomes 3).attempts = 1 ∧
      (NewsArbStrategy.callLLM outcomes 3).delays = [] ∧
      ∃ m, outcomes 1 = .err m ∧
        (NewsArbStrategy.callLLM outcomes 3).result = .error m) := by
  constructor
  · intro h
    obtain ⟨m1, hm1, hr1⟩ := h 1 (by omega) (by omega)
    obtain ⟨m2, hm2, hr2⟩ := h 2 (by omega) (by omega)
    obtain ⟨m3, hm3, hr3⟩ := h 3 (by omega) (by omega)
    unfold NewsArbStrategy.callLLM
    simp [NewsArbStrategy.callLLMGo, NewsArbStrategy.attemptResult, hm1, hm2, hm3,
      hr1, hr2, hr3]
  · intro h
    obtain ⟨m1, hm1, hr1⟩ := h
    unfold NewsArbStrategy.callLLM
    simp [NewsArbStrategy.callLLMGo, NewsArbStrategy.attemptResult, hm1, hr1]

def allOverloadedC6 : Nat → LLMOutcome := fun _ => .err "model overloaded"

/-- Witness for `claim_C6_amended` on an all-transient oracle. -/
theorem claim_C6_witness :
    (NewsArbStrategy.callLLM allOverloadedC6 3).attempts = 3 ∧
    (NewsArbStrategy.callLLM allOverloadedC6 3).delays = [10000, 20000] ∧
    ∃ m, allOverloadedC6 3 = .err m ∧
      (NewsArbStrategy.callLLM allOverloadedC6 3).result = .error m :=
  (claim_C6_amended allOverloadedC6).1
    (fun _ _ _ => ⟨"model overloaded", rfl, by decide⟩)

/-! ## matchArticlesLocally: scoring, relevance filter, stable sort -/

/-- Modelled from the spec: `MarketKeywordExtractor.calculateRelevanceScore`
(market-keyword-extractor.ts) is not under src/.  Per the spec it computes
the keyword-overlap score of an article's title+description against the
market's extracted keywords, a non-negative relevance quantity; it is
modelled as an arbitrary score function on articles, with non-negativity
taken as a hypothesis where a claim needs it. -/
def KeywordScorer : Type := Article → ℚ

namespace NewsService

/-- The lowercased `title description` text an article is matched on. -/
def articleText (a : Article) : String :=
  strLower (a.title ++ " " ++ a.description)

/-- How many of the market title's key terms occur in the article text.
`keyTerms` stands for the market title's stripped token set (the source
derives it from the title by deleting stop words and keeping tokens longer
than 3 characters). -/
def matchedTermCount (keyTerms : List String) (a : Article) : Nat :=
  (keyTerms.filter (fun t => strContains (articleText a) t)).length

/-- `score = keywordScore * 2 + 0.3 per matched key term`. -/
def rawScore (kwScore : KeywordScorer) (keyTerms : List String) (a : Article) : ℚ :=
  kwScore a * 2 + (matchedTermCount keyTerms a : ℚ) * mkRat 3 10

/-- `{ ...article, relevanceScore: Math.min(score, 1.0) }`. -/
def scoreArticle (kwScore : KeywordScorer) (keyTerms : List String) (a : Article) :
    Article :=
  { a with relevanceScore := min (rawScore kwScore keyTerms a) 1 }

/-- Stable insertion for descending relevance: the inserted element (the
earlier one in input order) goes before any element of equal score.
Together with `sortByRelevance` this models the stable JS
`Array.prototype.sort((a, b) => b.relevanceScore - a.relevanceScore)`. -/
def insertByRelevance (x : Article) : List Article → List Article
  | [] => [x]
  | y :: rest =>
    if x.relevanceScore < y.relevanceScore then y :: insertByRelevance x rest
    else x :: y :: rest

def sortByRelevance : List Article → List Article
  | [] => []
  | a :: rest => insertByRelevance a (sortByRelevance rest)

/-- The map-and-filter stage of `matchArticlesLocally`. -/
def matchFiltered (kwScore : KeywordScorer) (keyTerms : List String)
    (articles : List Article) : List Article :=
  (articles.map (scoreArticle kwScore keyTerms)).filter
    (fun a => decide (mkRat 3 10 ≤ a.relevanceScore))

/-- `matchArticlesLocally`: score each article, drop those below 0.3, sort
by descending relevance (stable), and keep the top 10. -/
def matchArticlesLocally (kwScore : KeywordScorer) (keyTerms : List String)
    (articles : List Article) : List Article :=
  (sortByRelevance (matchFiltered kwScore keyTerms articles)).take 10

end NewsService

theorem insertByRelevance_perm (x : Article) (l : List Article) :
    List.Perm (NewsService.insertByRelevance x l) (x :: l) := by
  induction l with
  | nil => rfl
  | cons y rest ih =>
    unfold NewsService.insertByRelevance
    by_cases hlt : x.relevanceScore < y.relevanceScore
    · rw [if_pos hlt]
      exact ((ih.cons y).trans (List.Perm.swap x y rest))
    · rw [if_neg hlt]

theorem sortByRelevance_perm (l : List Article) :
    List.Perm (NewsService.sortByRelevance l) l := by
  induction l with
  | nil => rfl
  | cons a rest ih =>
    exact (insertByRelevance_perm a (NewsService.sortByRelevance rest)).trans (ih.cons a)

theorem insertByRelevance_sorted (x : Article) (l : List Article)
    (hs : l.Pairwise (fun a b => b.relevanceScore ≤ a.relevanceScore)) :
    (NewsService.insertByRelevance x l).Pairwise
      (fun a b => b.relevanceScore ≤ a.relevanceScore) := by
  induction l with
  | nil => simp [NewsService.insertByRelevance]
  | cons y rest ih =>
    rw [List.pairwise_cons] at hs
    unfold NewsService.insertByRelevance
    by_cases hlt : x.relevanceScore < y.relevanceScore
    · rw [if_pos hlt, List.pairwise_cons]
      constructor
      · intro b hb
        rcases List.mem_cons.mp ((insertByRelevance_perm x rest).mem_iff.mp hb) with
          rfl | hb
        · exact le_of_lt hlt
        · exact hs.1 b hb
      · exact ih hs.2
    · rw [if_neg hlt, List.pairwise_cons]
      constructor
      · intro b hb
        rcases List.mem_cons.mp hb with rfl | hb
        · exact le_of_not_lt hlt
        · exact le_trans (hs.1 b hb) (le_of_not_lt hlt)
      · exact List.pairwise_cons.mpr hs

theorem sortByRelevance_sorted (l : List Article) :
    (NewsService.sortByRelevance l).Pairwise
      (fun a b => b.relevanceScore ≤ a.relevanceScore) := by
  induction l with
  | nil => simp [NewsService.sortByRelevance]
  | cons a rest ih => exact insertByRelevance_sorted a _ ih

theorem insertByRelevance_filter_ne (x : Article) (c : ℚ) (l : List Article)
    (hx : x.relevanceScore ≠ c) :
    (NewsService.insertByRelevance x l).filter
        (fun b => decide (b.relevanceScore = c)) =
      l.filter (fun b => decide (b.relevanceScore = c)) := by
  induction l with
  | nil => simp [NewsService.insertByRelevance, hx]
  | cons y rest ih =>
    unfold NewsService.insertByRelevance
    by_cases hlt : x.relevanceScore < y.relevanceScore
    · rw [if_pos hlt]
      by_cases hy : y.relevanceScore = c
      · simp [List.filter_cons, hy, ih]
      · simp [List.filter_cons, hy, ih]
    · rw [if_neg hlt]
      simp [List.filter_cons, hx]

theorem insertByRelevance_filter_eq (x : Article) (c : ℚ) (l : List Article)
    (hx : x.relevanceScore = c) :
    (NewsService.insertByRelevance x l).filter
        (fun b => decide (b.relevanceScore = c)) =
      x :: l.filter (fun b => decide (b.relevanceScore = c)) := by
  induction l with
  | nil => simp [NewsService.insertByRelevance, hx]
  | cons y rest ih =>
    unfold NewsService.insertByRelevance
    by_cases hlt : x.relevanceScore < y.relevanceScore
    · rw [if_pos hlt]
      have hy : ¬ y.relevanceScore = c := by
        intro he
        rw [hx] at hlt
        rw [he] at hlt
        exact lt_irrefl c hlt
      simp [List.filter_cons, hy, ih]
    · rw [if_neg hlt]
      simp [List.filter_cons, hx]

/-- Stability of the sort: for every score value, the articles carrying
that score appear in the sorted list in their original relative order. -/
theorem sortByRelevance_stable (l : List Article) (c : ℚ) :
    (NewsService.sortByRelevance l).filter (fun b => decide (b.relevanceScore = c)) =
      l.filter (fun b => decide (b.relevanceScore = c)) := by
  induction l with
  | nil => rfl
  | cons a rest ih =>
    by_cases ha : a.relevanceScore = c
    · rw [NewsService.sortByRelevance, insertByRelevance_filter_eq a c _ ha, ih]
      simp [List.filter_cons, ha]
    · rw [NewsService.sortByRelevance, insertByRelevance_filter_ne a c _ ha, ih]
      simp [List.filter_cons, ha]

/-- Claim C8.  `matchArticlesLocally` assigns each article the relevance
score `2·keywordScore + 0.3·matchedKeyTerms` clamped to [0, 1] (the lower
clamp uses the non-negativity of the keyword-overlap score), excludes every
article scoring below 0.3, sorts the survivors by descending score —
stably, so ties keep their input order — and truncates to at most 10
results. -/
theorem claim_C8 (kwScore : KeywordScorer) (keyTerms : List String)
    (articles : List Article) (hkw : ∀ a, 0 ≤ kwScore a) :
    (∀ a ∈ articles,
      (NewsService.scoreArticle kwScore keyTerms a).relevanceScore =
        min (kwScore a * 2 + (NewsService.matchedTermCount keyTerms a : ℚ) *
          mkRat 3 10) 1 ∧
      0 ≤ (NewsService.scoreArticle kwScore keyTerms a).relevanceScore ∧
      (NewsService.scoreArticle kwScore keyTerms a).relevanceScore ≤ 1) ∧
    (∀ b ∈ NewsService.matchArticlesLocally kwScore keyTerms articles,
      mkRat 3 10 ≤ b.relevanceScore ∧ b.relevanceScore ≤ 1 ∧
      ∃ a ∈ articles, b = NewsService.scoreArticle kwScore keyTerms a) ∧
    (∀ a ∈ articles,
      (NewsService.scoreArticle kwScore keyTerms a).relevanceScore < mkRat 3 10 →
      NewsService.scoreArticle kwScore keyTerms a ∉
        NewsService.matchArticlesLocally kwScore keyTerms articles) ∧
    (NewsService.matchArticlesLocally kwScore keyTerms articles).Pairwise
      (fun x y => y.relevanceScore ≤ x.relevanceScore) ∧
    (NewsService.matchArticlesLocally kwScore keyTerms articles).length ≤ 10 ∧
    (∀ c : ℚ,
      (NewsService.sortByRelevance
          (NewsService.matchFiltered kwScore keyTerms articles)).filter
          (fun b => decide (b.relevanceScore = c)) =
        (NewsService.matchFiltered kwScore keyTerms articles).filter
          (fun b => decide (b.relevanceScore = c))) := by
  have hout : ∀ b ∈ NewsService.matchArticlesLocally kwScore keyTerms articles,
      mkRat 3 10 ≤ b.relevanceScore ∧ b.relevanceScore ≤ 1 ∧
      ∃ a ∈ articles, b = NewsService.scoreArticle kwScore keyTerms a := by
    intro b hb
    have hb1 : b ∈ NewsService.sortByRelevance
        (NewsService.matchFiltered kwScore keyTerms articles) :=
      List.mem_of_mem_take hb
    have hb2 : b ∈ NewsService.matchFiltered kwScore keyTerms articles :=
      (sortByRelevance_perm _).mem_iff.mp hb1
    obtain ⟨hb3, hb4⟩ := List.mem_filter.mp hb2
    obtain ⟨a, ha, rfl⟩ := List.mem_map.mp hb3
    refine ⟨by simpa using hb4, min_le_right _ _, a, ha, rfl⟩
  refine ⟨?_, hout, ?_, ?_, ?_, ?_⟩
  · intro a _
    refine ⟨rfl, ?_, min_le_right _ _⟩
    apply le_min
    · apply add_nonneg
      · exact mul_nonneg (hkw a) (by decide)
      · exact mul_nonneg (Nat.cast_nonneg _) (by decide)
    · decide
  · intro a _ hlt hmem
    exact absurd (hout _ hmem).1 (not_le.mpr hlt)
  · exact List.Pairwise.sublist (List.take_sublist 10 _) (sortByRelevance_sorted _)
  · rw [NewsService.matchArticlesLocally, List.length_take]
    exact Nat.min_le_left _ _
  · exact fun c => sortByRelevance_stable _ c

def kwZeroC8 : KeywordScorer := fun _ => 0

/-- Witness for `claim_C8` on a concrete scorer and article list. -/
theorem claim_C8_witness :
    (NewsService.matchArticlesLocally kwZeroC8 ["fed"] [artA]).Pairwise
      (fun x y => y.relevanceScore ≤ x.relevanceScore) ∧
    (NewsService.matchArticlesLocally kwZeroC8 ["fed"] [artA]).length ≤ 10 :=
  ⟨(claim_C8 kwZeroC8 ["fed"] [artA] (fun _ => le_refl 0)).2.2.2.1,
    (claim_C8 kwZeroC8 ["fed"] [artA] (fun _ => le_refl 0)).2.2.2.2.1⟩

/-! ## buildSignal and claim C10 -/

inductive SignalKind where
  | bullish
  | bearish
  | neutral
deriving DecidableEq

structure NewsSignal where
  market : String
  signal : SignalKind
  confidence : ℚ
  articles : List Article
deriving DecidableEq

/-- JS `x || d` on numbers: a zero (or absent, encoded as zero) value falls
back to the default. -/
def jsOr (x d : ℚ) : ℚ :=
  if x = 0 then d else x

namespace NewsService

/-- `buildSignal(marketTitle, articles)`: weighted sentiment vote with a
0.95 confidence cap. -/
def buildSignal (marketTitle : String) (articles : List Article) : NewsSignal :=
  match articles with
  | [] => { market := marketTitle, signal := .neutral, confidence := 0, articles := [] }
  | _ :: _ =>
    let weight : Article → ℚ := fun a => jsOr a.relevanceScore (mkRat 1 2)
    let totalWeight := (articles.map weight).sum
    let positiveCount := (articles.map (fun a =>
      if a.sentiment = Sentiment.positive then weight a else 0)).sum
    let negativeCount := (articles.map (fun a =>
      if a.sentiment = Sentiment.negative then weight a else 0)).sum
    let positiveRatio := positiveCount / totalWeight
    let negativeRatio := negativeCount / totalWeight
    let signal : SignalKind :=
      if mkRat 6 10 < positiveRatio then .bullish
      else if mkRat 6 10 < negativeRatio then .bearish
      else .neutral
    let confidence0 : ℚ :=
      if mkRat 6 10 < positiveRatio then positiveRatio
      else if mkRat 6 10 < negativeRatio then negativeRatio
      else mkRat 1 2
    let avgRelevance :=
      (articles.map (fun a => jsOr a.relevanceScore 0)).sum / (articles.length : ℚ)
    let articleCountBonus := min (mkRat 2 10) ((articles.length : ℚ) * mkRat 2 100)
    let confidence := min (mkRat 95 100) (confidence0 * avgRelevance + articleCountBonus)
    { market := marketTitle, signal := signal, confidence := confidence,
      articles := articles.take 5 }

end NewsService

theorem jsOr_zero (x : ℚ) : jsOr x 0 = x := by
  unfold jsOr
  split
  · next hx => exact hx.symm
  · rfl

/-- Claim C10.  For article lists with non-negative relevance scores — as
produced by `matchArticlesLocally`, whose outputs score at least 0.3 —
every signal built by `buildSignal` has confidence in [0, 0.95]. -/
theorem claim_C10 (title : String) (articles : List Article)
    (h : ∀ a ∈ articles, 0 ≤ a.relevanceScore) :
    0 ≤ (NewsService.buildSignal title articles).confidence ∧
    (NewsService.buildSignal title articles).confidence ≤ mkRat 95 100 := by
  cases articles with
  | nil =>
    constructor
    · exact le_refl 0
    · show (0 : ℚ) ≤ mkRat 95 100
      decide
  | cons a rest =>
    have hconf : (NewsService.buildSignal title (a :: rest)).confidence =
        min (mkRat 95 100)
          ((if mkRat 6 10 <
              ((a :: rest).map (fun x =>
                if x.sentiment = Sentiment.positive then jsOr x.relevanceScore (mkRat 1 2)
                else 0)).sum /
              ((a :: rest).map (fun x => jsOr x.relevanceScore (mkRat 1 2))).sum then
              ((a :: rest).map (fun x =>
                if x.sentiment = Sentiment.positive then jsOr x.relevanceScore (mkRat 1 2)
                else 0)).sum /
              ((a :: rest).map (fun x => jsOr x.relevanceScore (mkRat 1 2))).sum
            else if mkRat 6 10 <
              ((a :: rest).map (fun x =>
                if x.sentiment = Sentiment.negative then jsOr x.relevanceScore (mkRat 1 2)
                else 0)).sum /
              ((a :: rest).map (fun x => jsOr x.relevanceScore (mkRat 1 2))).sum then
              ((a :: rest).map (fun x =>
                if x.sentiment = Sentiment.negative then jsOr x.relevanceScore (mkRat 1 2)
                else 0)).sum /
              ((a :: rest).map (fun x => jsOr x.relevanceScore (mkRat 1 2))).sum
            else mkRat 1 2) *
            (((a :: rest).map (fun x => jsOr x.relevanceScore 0)).sum /
              (((a :: rest).length : ℚ))) +
            min (mkRat 2 10) (((a :: rest).length : ℚ) * mkRat 2 100)) := rfl
    rw [hconf]
    constructor
    · apply le_min
      · decide
      · apply add_nonneg
        · apply mul_nonneg
          · split
            · next hpos =>
                exact le_trans (show (0 : ℚ) ≤ mkRat 6 10 by decide) (le_of_lt hpos)
            · split
              · next hneg =>
                  exact le_trans (show (0 : ℚ) ≤ mkRat 6 10 by decide) (le_of_lt hneg)
              · decide
          · apply div_nonneg
            · apply List.sum_nonneg
              intro x hx
              obtain ⟨b, hb, rfl⟩ := List.mem_map.mp hx
              rw [jsOr_zero]
              exact h b hb
            · exact Nat.cast_nonneg _
        · apply le_min
          · decide
          · exact mul_nonneg (Nat.cast_nonneg _) (by decide)
    · exact min_le_left _ _

def artPosC10 : Article :=
  { title := "P", description := "positive piece", url := "uP", source := "s1",
    publishedAt := 0, sentiment := .positive, relevanceScore := 1, categories := [] }

/-- Witness for `claim_C10` on a single fully relevant positive article. -/
theorem claim_C10_witness :
    0 ≤ (NewsService.buildSignal "Fed cuts" [artPosC10]).confidence ∧
    (NewsService.buildSignal "Fed cuts" [artPosC10]).confidence ≤ mkRat 95 100 :=
  claim_C10 "Fed cuts" [artPosC10] (by
    intro a ha
    rw [List.mem_singleton.mp ha]
    decide)
